import Mathlib

/-!
Verification of the gmail-housekeeping utility (src/gmail-client.ts) against
its natural-language specification.

The TypeScript source is shallowly embedded: the network (Gmail API) is a
parameter of each operation — an oracle telling how each remote call would
respond — and every operation additionally returns the list of requests it
issued, so that statements about "no network call is made" or "the outgoing
request carries maxResults 500" are expressible.
-/

namespace GmailClient

/-- `CleanupResult` from src/types.ts. -/
structure CleanupResult where
  totalFound : Nat
  deleted : Nat
  errors : List String
  deriving DecidableEq, Repr

/-- `EmailMatch` from src/types.ts. -/
structure EmailMatch where
  id : String
  threadId : String
  snippet : String
  deriving DecidableEq, Repr

/-! ## Batch deleter (`batchDeleteEmails`, gmail-client.ts lines 183-218) -/

/-- The chunking performed by the loop
`for (let i = 0; i < messageIds.length; i += batchSize)` with
`batch = messageIds.slice(i, i + batchSize)` and `batchSize = 1000`:
consecutive slices of at most 1000 ids. -/
def batchChunks : List String → List (List String)
  | [] => []
  | x :: xs => (x :: xs).take 1000 :: batchChunks ((x :: xs).drop 1000)
termination_by l => l.length
decreasing_by simp; omega

/-- The body of the deletion loop. `net i` is the outcome of the `i`-th
`users.messages.batchDelete` call (`Except.error e` models a thrown error
whose message is `e`). Returns the accumulated `deleted` count and the
accumulated error list, mirroring `result.deleted += batch.length` on
success and `result.errors.push(errorMsg)` on failure. -/
def processChunks (net : Nat → Except String Unit) (idx : Nat) :
    List (List String) → Nat × List String
  | [] => (0, [])
  | b :: rest =>
    match net idx with
    | .ok _ =>
      let r := processChunks net (idx + 1) rest
      (b.length + r.1, r.2)
    | .error e =>
      let r := processChunks net (idx + 1) rest
      (r.1, ("Error deleting batch: " ++ e) :: r.2)

/-- `batchDeleteEmails(messageIds, dryRun)` from gmail-client.ts.
The second component of the result is the list of request bodies (id
chunks) actually sent to `users.messages.batchDelete`, in order. -/
def batchDeleteEmails (net : Nat → Except String Unit)
    (messageIds : List String) (dryRun : Bool) :
    CleanupResult × List (List String) :=
  if dryRun then
    ({ totalFound := messageIds.length, deleted := 0, errors := [] }, [])
  else
    let bs := batchChunks messageIds
    let r := processChunks net 0 bs
    ({ totalFound := messageIds.length, deleted := r.1, errors := r.2 }, bs)

/-- The chunks whose `batchDelete` call fails (spec-side helper used to
state the accounting invariants). -/
def failedChunks (net : Nat → Except String Unit) (idx : Nat) :
    List (List String) → List (List String)
  | [] => []
  | b :: rest =>
    match net idx with
    | .ok _ => failedChunks net (idx + 1) rest
    | .error _ => b :: failedChunks net (idx + 1) rest

lemma batchChunks_cons_eq (ids : List String) (h : ids ≠ []) :
    batchChunks ids = ids.take 1000 :: batchChunks (ids.drop 1000) := by
  cases ids with
  | nil => exact absurd rfl h
  | cons x xs => rw [batchChunks]

lemma batchChunks_join_of_le :
    ∀ (n : Nat) (ids : List String), ids.length ≤ n →
      (batchChunks ids).flatten = ids := by
  intro n
  induction n with
  | zero =>
    intro ids h
    have : ids = [] := List.length_eq_zero.mp (Nat.le_zero.mp h)
    simp [this, batchChunks]
  | succ n ih =>
    intro ids h
    cases ids with
    | nil => simp [batchChunks]
    | cons x xs =>
      rw [batchChunks_cons_eq _ (by simp)]
      have hd : ((x :: xs).drop 1000).length ≤ n := by
        simp only [List.length_drop, List.length_cons]
        simp only [List.length_cons] at h
        omega
      rw [List.flatten, ih _ hd, List.take_append_drop]

lemma batchChunks_join (ids : List String) : (batchChunks ids).flatten = ids :=
  batchChunks_join_of_le ids.length ids (Nat.le_refl _)

lemma batchChunks_sizes_of_le :
    ∀ (n : Nat) (ids : List String), ids.length ≤ n →
      ∀ b ∈ batchChunks ids, b.length ≤ 1000 := by
  intro n
  induction n with
  | zero =>
    intro ids h
    have : ids = [] := List.length_eq_zero.mp (Nat.le_zero.mp h)
    simp [this, batchChunks]
  | succ n ih =>
    intro ids h b hb
    cases ids with
    | nil => simp [batchChunks] at hb
    | cons x xs =>
      rw [batchChunks_cons_eq _ (by simp)] at hb
      cases hb with
      | head => simp [List.length_take]
      | tail _ hb =>
        refine ih ((x :: xs).drop 1000) ?_ b hb
        simp only [List.length_drop, List.length_cons]
        simp only [List.length_cons] at h
        omega

lemma batchChunks_sizes (ids : List String) :
    ∀ b ∈ batchChunks ids, b.length ≤ 1000 :=
  batchChunks_sizes_of_le ids.length ids (Nat.le_refl _)

lemma batchChunks_len_2500 (ids : List String) (h : ids.length = 2500) :
    (batchChunks ids).map List.length = [1000, 1000, 500] := by
  have h0 : ids ≠ [] := by
    intro hnil; rw [hnil] at h; simp at h
  rw [batchChunks_cons_eq _ h0]
  have hd1 : (ids.drop 1000).length = 1500 := by simp [List.length_drop, h]
  have h1 : ids.drop 1000 ≠ [] := by
    intro hnil; rw [hnil] at hd1; simp at hd1
  rw [batchChunks_cons_eq _ h1]
  have hd2 : ((ids.drop 1000).drop 1000).length = 500 := by
    simp [List.length_drop, h]
  have h2 : (ids.drop 1000).drop 1000 ≠ [] := by
    intro hnil; rw [hnil] at hd2; simp at hd2
  rw [batchChunks_cons_eq _ h2]
  have hd3 : (((ids.drop 1000).drop 1000).drop 1000).length = 0 := by
    simp [List.length_drop, h]
  have h3 : ((ids.drop 1000).drop 1000).drop 1000 = [] :=
    List.length_eq_zero.mp hd3
  rw [h3, batchChunks]
  simp [List.length_take, h, hd1, hd2]

lemma processChunks_deleted (net : Nat → Except String Unit) :
    ∀ (bs : List (List String)) (idx : Nat),
      (processChunks net idx bs).1 +
        ((failedChunks net idx bs).map List.length).sum =
      (bs.map List.length).sum := by
  intro bs
  induction bs with
  | nil => intro idx; simp [processChunks, failedChunks]
  | cons b rest ih =>
    intro idx
    cases hnet : net idx with
    | ok u =>
      simp only [processChunks, failedChunks, hnet, List.map_cons, List.sum_cons]
      have := ih (idx + 1)
      omega
    | error e =>
      simp only [processChunks, failedChunks, hnet, List.map_cons, List.sum_cons]
      have := ih (idx + 1)
      omega

lemma processChunks_errors_length (net : Nat → Except String Unit) :
    ∀ (bs : List (List String)) (idx : Nat),
      (processChunks net idx bs).2.length =
      (failedChunks net idx bs).length := by
  intro bs
  induction bs with
  | nil => intro idx; simp [processChunks, failedChunks]
  | cons b rest ih =>
    intro idx
    cases hnet : net idx with
    | ok u => simp only [processChunks, failedChunks, hnet]; exact ih (idx + 1)
    | error e =>
      simp only [processChunks, failedChunks, hnet, List.length_cons]
      rw [ih (idx + 1)]

lemma sum_map_length_batchChunks (ids : List String) :
    ((batchChunks ids).map List.length).sum = ids.length := by
  rw [← List.length_flatten, batchChunks_join]

/-! ## Search (`searchEmails`, gmail-client.ts lines 116-178) -/

/-- JavaScript truthiness of an optional string: `undefined` and the empty
string are falsy. Used wherever the source tests a string with `if (x)` or
applies `x || defaultValue`. -/
def truthy : Option String → Bool
  | none => false
  | some s => !s.isEmpty

/-- The `searchEmails` config argument: `senders?`, `subjects?`,
`maxResults?` (all optional). -/
structure SearchConfig where
  senders : Option (List String)
  subjects : Option (List String)
  maxResults : Option Nat

/-- The parenthesized OR-group built for senders:
`queryParts.push('(' + senderQueries.join(' OR ') + ')')` with
`senderQueries = senders.map(sender =&gt; 'from:' + sender)`. -/
def senderGroup (senders : List String) : String :=
  "(" ++ String.intercalate " OR " (senders.map (fun sender => "from:" ++ sender)) ++ ")"

/-- The parenthesized OR-group built for subjects, each quoted:
`subjectQueries = subjects.map(subject =&gt; 'subject:\x22' + subject + '\x22')`. -/
def subjectGroup (subjects : List String) : String :=
  "(" ++ String.intercalate " OR "
    (subjects.map (fun subject => "subject:\"" ++ subject ++ "\"")) ++ ")"

/-- The `queryParts` array after the two conditional pushes
(gmail-client.ts lines 121-133): a sender group when `config.senders`
is present and non-empty, then a subject group likewise. -/
def queryParts (c : SearchConfig) : List String :=
  (match c.senders with
   | some ss => if ss.length > 0 then [senderGroup ss] else []
   | none => []) ++
  (match c.subjects with
   | some ss => if ss.length > 0 then [subjectGroup ss] else []
   | none => [])

/-- Lines 135-139: throw when no criterion was given, otherwise
`queryParts.join(' AND ')`. -/
def buildQuery (c : SearchConfig) : Except String String :=
  if queryParts c = [] then
    .error "At least one sender or subject must be specified"
  else
    .ok (String.intercalate " AND " (queryParts c))

/-- Line 140: `const maxResults = config.maxResults || 500` — the JS `||`
substitutes 500 for any falsy value, i.e. for `undefined` and for `0`. -/
def defaultedMaxResults : Option Nat → Nat
  | none => 500
  | some n => if n = 0 then 500 else n

/-- One element of `response.data.messages`: provider message ids and
thread ids are optional strings. -/
structure ListedMsg where
  id : Option String
  threadId : Option String
  deriving DecidableEq, Repr

/-- The provider (Gmail API) as seen by `searchEmails`:
`listMessages q maxResults` is `users.messages.list`, and `getMessage id`
is `users.messages.get`, returning the optional `data.snippet` on success
and the thrown error on failure. -/
structure Provider where
  listMessages : String → Nat → List ListedMsg
  getMessage : String → Except String (Option String)

/-- A network request issued by `searchEmails`. -/
inductive NetCall where
  | listCall (q : String) (maxResults : Nat)
  | getCall (id : String)
  deriving DecidableEq, Repr

/-- The metadata-fetch loop (lines 155-175): for each listed message with
a truthy id, call `users.messages.get`; on success push an `EmailMatch`
(thread id defaulted to the empty string, snippet truncated to 100
characters); on a thrown error log and skip. Also returns the `get`
requests issued. -/
def fetchMatchesTr (g : String → Except String (Option String)) :
    List ListedMsg → List EmailMatch × List NetCall
  | [] => ([], [])
  | m :: rest =>
    let r := fetchMatchesTr g rest
    if truthy m.id then
      match g (m.id.getD "") with
      | .ok snip =>
        (⟨m.id.getD "", m.threadId.getD "", (snip.getD "").take 100⟩ :: r.1,
         NetCall.getCall (m.id.getD "") :: r.2)
      | .error _ => (r.1, NetCall.getCall (m.id.getD "") :: r.2)
    else r

/-- `searchEmails(config)` from gmail-client.ts, with the requests it
issues as second component. The listing request carries
`Math.min(maxResults, 500)`. -/
def searchEmailsTr (p : Provider) (c : SearchConfig) :
    Except String (List EmailMatch) × List NetCall :=
  if queryParts c = [] then
    (.error "At least one sender or subject must be specified", [])
  else
    let query := String.intercalate " AND " (queryParts c)
    let maxResults := defaultedMaxResults c.maxResults
    let msgs := p.listMessages query (min maxResults 500)
    let r := fetchMatchesTr p.getMessage msgs
    (.ok r.1, NetCall.listCall query (min maxResults 500) :: r.2)

/-- Spec-side helper: the match produced from one listed message when its
metadata fetch succeeds, `none` when the id is falsy or the fetch fails. -/
def successfulMatch (g : String → Except String (Option String))
    (m : ListedMsg) : Option EmailMatch :=
  if truthy m.id then
    match g (m.id.getD "") with
    | .ok snip => some ⟨m.id.getD "", m.threadId.getD "", (snip.getD "").take 100⟩
    | .error _ => none
  else none

/-- Spec-side helper: the candidate's metadata fetch is attempted and
fails. -/
def fetchFails (g : String → Except String (Option String))
    (m : ListedMsg) : Bool :=
  truthy m.id &&
    match g (m.id.getD "") with
    | .error _ => true
    | .ok _ => false

lemma fetchMatchesTr_eq_filterMap (g : String → Except String (Option String)) :
    ∀ msgs : List ListedMsg,
      (fetchMatchesTr g msgs).1 = msgs.filterMap (successfulMatch g) := by
  intro msgs
  induction msgs with
  | nil => simp [fetchMatchesTr]
  | cons m rest ih =>
    by_cases ht : truthy m.id
    · cases hg : g (m.id.getD "") with
      | ok snip =>
        simp [fetchMatchesTr, successfulMatch, ht, hg, List.filterMap_cons, ih]
      | error e =>
        simp [fetchMatchesTr, successfulMatch, ht, hg, List.filterMap_cons, ih]
    · simp [fetchMatchesTr, successfulMatch, ht, List.filterMap_cons, ih]

lemma fetchMatchesTr_length (g : String → Except String (Option String)) :
    ∀ msgs : List ListedMsg, (∀ m ∈ msgs, truthy m.id = true) →
      (fetchMatchesTr g msgs).1.length +
        (msgs.filter (fetchFails g)).length = msgs.length := by
  intro msgs
  induction msgs with
  | nil => intro _; simp [fetchMatchesTr]
  | cons m rest ih =>
    intro hall
    have ht : truthy m.id = true := hall m (List.mem_cons_self m rest)
    have hrest : ∀ x ∈ rest, truthy x.id = true :=
      fun x hx => hall x (List.mem_cons_of_mem m hx)
    cases hg : g (m.id.getD "") with
    | ok snip =>
      have hf : fetchFails g m = false := by simp [fetchFails, ht, hg]
      have := ih hrest
      simp [fetchMatchesTr, ht, hg, List.filter_cons, hf]
      omega
    | error e =>
      have hf : fetchFails g m = true := by simp [fetchFails, ht, hg]
      have := ih hrest
      simp [fetchMatchesTr, ht, hg, List.filter_cons, hf]
      omega

lemma fetchMatchesTr_no_listCall (g : String → Except String (Option String)) :
    ∀ (msgs : List ListedMsg) (q : String) (mr : Nat),
      NetCall.listCall q mr ∉ (fetchMatchesTr g msgs).2 := by
  intro msgs
  induction msgs with
  | nil => intro q mr; simp [fetchMatchesTr]
  | cons m rest ih =>
    intro q mr
    by_cases ht : truthy m.id
    · cases hg : g (m.id.getD "") with
      | ok snip => simp [fetchMatchesTr, ht, hg]; exact ih q mr
      | error e => simp [fetchMatchesTr, ht, hg]; exact ih q mr
    · simp [fetchMatchesTr, ht]; exact ih q mr

/-! ## Authenticator (`authenticate`, gmail-client.ts lines 21-111) -/

/-- Resolved OAuth2 client credentials. -/
structure Credentials where
  clientId : String
  clientSecret : String
  redirectUri : String
  deriving DecidableEq, Repr

/-- The environment `authenticate` runs in: file system contents,
process environment, the operator's console answer, and the remote OAuth
endpoints (`profileOk` is the outcome of the `users.getProfile` probe with
the saved token; `tokenExchange code` is `auth.getToken(code)`, returning
the obtained token on success). -/
structure AuthEnv where
  credentialsFile : Option Credentials
  envClientId : Option String
  envClientSecret : Option String
  envRedirectUri : Option String
  tokenFile : Option String
  profileOk : Bool
  envAuthCode : Option String
  promptAnswer : String
  tokenExchange : String → Except String String

/-- Observable effects of `authenticate`, in order of occurrence. -/
inductive AuthEvent where
  | profileProbe
  | printAuthUrl
  | promptForCode
  | exchangeCode (code : String)
  | writeToken (tok : String)
  deriving DecidableEq, Repr

/-- Lines 27-43: read `credentials.json` if present, else fall back to
`CLIENT_ID`/`CLIENT_SECRET` (with `REDIRECT_URI` defaulted), else throw. -/
def resolveCredentials (w : AuthEnv) : Except String Credentials :=
  match w.credentialsFile with
  | some creds => .ok creds
  | none =>
    if truthy w.envClientId && truthy w.envClientSecret then
      .ok ⟨w.envClientId.getD "", w.envClientSecret.getD "",
        if truthy w.envRedirectUri then w.envRedirectUri.getD ""
        else "http://localhost:3000/oauth2callback"⟩
    else
      .error "credentials.json not found and CLIENT_ID/CLIENT_SECRET not set."

/-- Lines 105-110: exchange the authorization code for a token, set it
and persist it to token.json. A thrown exchange error propagates. -/
def exchangeAndStore (w : AuthEnv) (code : String) (evs : List AuthEvent) :
    Except String Unit × List AuthEvent :=
  match w.tokenExchange code with
  | .ok tok => (.ok (), evs ++ [AuthEvent.exchangeCode code, AuthEvent.writeToken tok])
  | .error e => (.error e, evs ++ [AuthEvent.exchangeCode code])

/-- Lines 63-110: the re-authorization flow. The authorization URL is
generated and printed unconditionally; the code comes from `AUTH_CODE`
when truthy, otherwise from an interactive prompt whose trimmed answer
must be non-empty. -/
def reauthorize (w : AuthEnv) : Except String Unit × List AuthEvent :=
  let evs := [AuthEvent.printAuthUrl]
  if truthy w.envAuthCode then
    exchangeAndStore w (w.envAuthCode.getD "") evs
  else
    let evs := evs ++ [AuthEvent.promptForCode]
    let answer := w.promptAnswer.trim
    if answer.isEmpty then
      (.error "Authorization code is required. Please run again and provide the code.",
       evs)
    else
      exchangeAndStore w answer evs

/-- `authenticate()` from gmail-client.ts. When token.json exists, its
token is set and verified by one `users.getProfile` probe; a successful
probe returns immediately, a failed one is caught (logged) and control
falls through to `reauthorize`. -/
def authenticate (w : AuthEnv) : Except String Unit × List AuthEvent :=
  match resolveCredentials w with
  | .error e => (.error e, [])
  | .ok _ =>
    match w.tokenFile with
    | some _ =>
      if w.profileOk then (.ok (), [AuthEvent.profileProbe])
      else
        let r := reauthorize w
        (r.1, AuthEvent.profileProbe :: r.2)
    | none => reauthorize w

end GmailClient

namespace GmailClient

/-! ## Claim theorems -/

/-- C1: for every list of N message ids, `batchDeleteEmails` with
`dryRun = true` returns exactly `{totalFound: N, deleted: 0, errors: []}`
and issues no deletion request (the issued-request list is empty). -/
theorem dryRun_pure_preview (net : Nat → Except String Unit)
    (ids : List String) :
    batchDeleteEmails net ids true =
      ({ totalFound := ids.length, deleted := 0, errors := [] }, []) := by
  simp [batchDeleteEmails]

/-- C2: with `dryRun = false` on a non-empty id list, the deletion
requests issued are exactly the consecutive chunks of at most 1000 ids,
in input order (their concatenation is the input); and for 2500 ids the
chunk sizes are 1000, 1000, 500, and when exactly the second request
fails the result is
`{totalFound: 2500, deleted: 1500, errors: [one message]}`. -/
theorem batchDelete_chunking :
    (∀ (net : Nat → Except String Unit) (ids : List String), ids ≠ [] →
      (batchDeleteEmails net ids false).2 = batchChunks ids ∧
      (batchChunks ids).flatten = ids ∧
      ∀ b ∈ batchChunks ids, b.length ≤ 1000) ∧
    (∀ ids : List String, ids.length = 2500 → ∀ msg : String,
      (batchChunks ids).map List.length = [1000, 1000, 500] ∧
      (batchDeleteEmails
          (fun i => if i = 1 then Except.error msg else Except.ok ())
          ids false).1 =
        { totalFound := 2500, deleted := 1500,
          errors := ["Error deleting batch: " ++ msg] }) := by
  constructor
  · intro net ids _
    exact ⟨by simp [batchDeleteEmails], batchChunks_join ids,
      batchChunks_sizes ids⟩
  · intro ids hlen msg
    have hmap := batchChunks_len_2500 ids hlen
    refine ⟨hmap, ?_⟩
    obtain ⟨b0, b1, b2, hbs, l0, l1, l2⟩ :
        ∃ b0 b1 b2, batchChunks ids = [b0, b1, b2] ∧
          b0.length = 1000 ∧ b1.length = 1000 ∧ b2.length = 500 := by
      cases hbs : batchChunks ids with
      | nil => rw [hbs] at hmap; simp at hmap
      | cons a t =>
        cases t with
        | nil => rw [hbs] at hmap; simp at hmap
        | cons b t2 =>
          cases t2 with
          | nil => rw [hbs] at hmap; simp at hmap
          | cons c t3 =>
            cases t3 with
            | nil =>
              rw [hbs] at hmap
              simp at hmap
              exact ⟨a, b, c, rfl, hmap.1, hmap.2.1, hmap.2.2⟩
            | cons d t4 => rw [hbs] at hmap; simp at hmap
    have hp : processChunks
        (fun i => if i = 1 then Except.error msg else Except.ok ()) 0
        [b0, b1, b2] =
        (b0.length + b2.length, ["Error deleting batch: " ++ msg]) := by
      simp [processChunks]
    simp [batchDeleteEmails, hbs, hp, hlen, l0, l2]

/-- C2 witness at 2500 concrete ids. -/
theorem batchDelete_chunking_witness :
    (batchDeleteEmails (fun _ => Except.ok ()) (List.replicate 2500 "a")
        false).2 = batchChunks (List.replicate 2500 "a") ∧
    (batchChunks (List.replicate 2500 "a")).map List.length =
      [1000, 1000, 500] :=
  ⟨(batchDelete_chunking.1 (fun _ => Except.ok ())
      (List.replicate 2500 "a")
      (List.ne_nil_of_length_pos (by rw [List.length_replicate]; omega))).1,
   (batchDelete_chunking.2 (List.replicate 2500 "a")
      (by rw [List.length_replicate]) "boom").1⟩

/-- C9: in every call the deleted count never exceeds `totalFound`; in a
non-dry-run call the error list has exactly one entry per failed chunk,
the deleted count plus the combined size of the failed chunks equals
`totalFound`, and an empty error list forces `deleted = totalFound`. -/
theorem cleanupResult_invariants :
    ∀ (net : Nat → Except String Unit) (ids : List String),
      (∀ dr, (batchDeleteEmails net ids dr).1.deleted ≤
        (batchDeleteEmails net ids dr).1.totalFound) ∧
      (batchDeleteEmails net ids false).1.errors.length =
        (failedChunks net 0 (batchChunks ids)).length ∧
      (batchDeleteEmails net ids false).1.deleted +
        ((failedChunks net 0 (batchChunks ids)).map List.length).sum =
        (batchDeleteEmails net ids false).1.totalFound ∧
      ((batchDeleteEmails net ids false).1.errors = [] →
        (batchDeleteEmails net ids false).1.deleted =
          (batchDeleteEmails net ids false).1.totalFound) := by
  intro net ids
  have hdel := processChunks_deleted net (batchChunks ids) 0
  have herr := processChunks_errors_length net (batchChunks ids) 0
  have hsum := sum_map_length_batchChunks ids
  refine ⟨?_, ?_, ?_, ?_⟩
  · intro dr
    cases dr with
    | true => simp [batchDeleteEmails]
    | false => simp [batchDeleteEmails]; omega
  · simp [batchDeleteEmails, herr]
  · simp [batchDeleteEmails]; omega
  · intro hE
    simp only [batchDeleteEmails, if_neg (by simp : ¬False)] at hE ⊢
    simp at hE ⊢
    have h0 : (failedChunks net 0 (batchChunks ids)).length = 0 := by
      rw [← herr, hE]; simp
    have hnil : failedChunks net 0 (batchChunks ids) = [] :=
      List.length_eq_zero.mp h0
    rw [hnil] at hdel
    simp at hdel
    omega

/-- C9 witness: a concrete non-dry-run call with an empty error list has
`deleted = totalFound`. -/
theorem cleanupResult_invariants_witness :
    (batchDeleteEmails (fun _ => Except.ok ()) [] false).1.deleted =
      (batchDeleteEmails (fun _ => Except.ok ()) [] false).1.totalFound :=
  (cleanupResult_invariants (fun _ => Except.ok ()) []).2.2.2
    (by simp [batchDeleteEmails, batchChunks, processChunks])

lemma intercalate_singleton (s x : String) : String.intercalate s [x] = x := rfl

lemma intercalate_pair (s a b : String) :
    String.intercalate s [a, b] = a ++ s ++ b := rfl

/-- C3: the constructed query is the parenthesized OR-group of `from:`
terms when only senders are given, the parenthesized OR-group of quoted
`subject:` terms when only subjects are given, and the two groups joined
by ` AND ` when both are given. -/
theorem query_construction :
    ∀ (senders subjects : List String) (mr : Option Nat),
      (senders ≠ [] →
        ∀ osub : Option (List String), osub = none ∨ osub = some [] →
          buildQuery ⟨some senders, osub, mr⟩ = .ok (senderGroup senders)) ∧
      (subjects ≠ [] →
        ∀ osen : Option (List String), osen = none ∨ osen = some [] →
          buildQuery ⟨osen, some subjects, mr⟩ = .ok (subjectGroup subjects)) ∧
      (senders ≠ [] → subjects ≠ [] →
        buildQuery ⟨some senders, some subjects, mr⟩ =
          .ok (senderGroup senders ++ " AND " ++ subjectGroup subjects)) := by
  intro senders subjects mr
  refine ⟨?_, ?_, ?_⟩
  · intro hs osub hosub
    have hlen : 0 < senders.length := List.length_pos.mpr hs
    have hq : queryParts ⟨some senders, osub, mr⟩ = [senderGroup senders] := by
      rcases hosub with h | h <;> subst h <;> simp [queryParts, hlen]
    simp [buildQuery, hq, intercalate_singleton]
  · intro hsub osen hosen
    have hlen : 0 < subjects.length := List.length_pos.mpr hsub
    have hq : queryParts ⟨osen, some subjects, mr⟩ = [subjectGroup subjects] := by
      rcases hosen with h | h <;> subst h <;> simp [queryParts, hlen]
    simp [buildQuery, hq, intercalate_singleton]
  · intro hs hsub
    have hls : 0 < senders.length := List.length_pos.mpr hs
    have hlsub : 0 < subjects.length := List.length_pos.mpr hsub
    have hq : queryParts ⟨some senders, some subjects, mr⟩ =
        [senderGroup senders, subjectGroup subjects] := by
      simp [queryParts, hls, hlsub]
    simp [buildQuery, hq, intercalate_pair]

/-- C3 witness at a concrete sender and subject. -/
theorem query_construction_witness :
    buildQuery ⟨some ["a@x.com"], some ["News"], none⟩ =
      .ok (senderGroup ["a@x.com"] ++ " AND " ++ subjectGroup ["News"]) :=
  (query_construction ["a@x.com"] ["News"] none).2.2 (by simp) (by simp)

/-- C4: `maxResults` defaults to 500 when absent; a caller input of 1000
is clamped to 500; every outgoing listing request carries
`min (defaulted maxResults) 500`, which never exceeds 500. -/
theorem maxResults_default_and_clamp :
    defaultedMaxResults none = 500 ∧
    min (defaultedMaxResults (some 1000)) 500 = 500 ∧
    (∀ m : Option Nat, min (defaultedMaxResults m) 500 ≤ 500) ∧
    (∀ (p : Provider) (c : SearchConfig) (q : String) (mr : Nat),
      NetCall.listCall q mr ∈ (searchEmailsTr p c).2 →
      mr = min (defaultedMaxResults c.maxResults) 500) := by
  refine ⟨rfl, rfl, fun m => Nat.min_le_right _ _, ?_⟩
  intro p c q mr hmem
  by_cases hq : queryParts c = []
  · simp [searchEmailsTr, hq] at hmem
  · simp [searchEmailsTr, hq] at hmem
    rcases hmem with ⟨_, hmr⟩ | hmem
    · exact hmr
    · exact absurd hmem (fetchMatchesTr_no_listCall p.getMessage _ q mr)

/-- C4 witness: a concrete call whose outgoing listing request carries
500 for a caller input of 1000. -/
theorem maxResults_default_and_clamp_witness :
    (500 : Nat) = min (defaultedMaxResults (some 1000)) 500 :=
  maxResults_default_and_clamp.2.2.2
    ⟨fun _ _ => [], fun _ => Except.error "offline"⟩
    ⟨some ["a"], none, some 1000⟩ "(from:a)" 500 (by decide)

/-- C10: a caller input of `maxResults = 0` is falsy in JavaScript, so the
default of 500 is substituted and the outgoing listing request carries
500. -/
theorem maxResults_zero_defaults :
    defaultedMaxResults (some 0) = 500 ∧
    ∀ (p : Provider) (c : SearchConfig),
      c.maxResults = some 0 → queryParts c ≠ [] →
      (searchEmailsTr p c).2.head? =
        some (NetCall.listCall
          (String.intercalate " AND " (queryParts c)) 500) := by
  refine ⟨rfl, ?_⟩
  intro p c hmr hq
  simp [searchEmailsTr, hq, hmr, defaultedMaxResults]

/-- C10 witness at a concrete config with `maxResults = 0`. -/
theorem maxResults_zero_defaults_witness :
    (searchEmailsTr ⟨fun _ _ => [], fun _ => Except.error "offline"⟩
        ⟨some ["a"], none, some 0⟩).2.head? =
      some (NetCall.listCall
        (String.intercalate " AND "
          (queryParts ⟨some ["a"], none, some 0⟩)) 500) :=
  maxResults_zero_defaults.2 _ _ rfl (by decide)

/-- C6: with neither a non-empty senders list nor a non-empty subjects
list, `searchEmails` fails with the validation error and issues no
network call at all. -/
theorem empty_criteria_validation :
    ∀ (p : Provider) (c : SearchConfig),
      (c.senders = none ∨ c.senders = some []) →
      (c.subjects = none ∨ c.subjects = some []) →
      searchEmailsTr p c =
        (.error "At least one sender or subject must be specified", []) := by
  intro p c hs hsub
  have hq : queryParts c = [] := by
    rcases hs with h | h <;> rcases hsub with h2 | h2 <;>
      simp [queryParts, h, h2]
  simp [searchEmailsTr, hq]

/-- C6 witness at an all-absent config. -/
theorem empty_criteria_validation_witness :
    searchEmailsTr ⟨fun _ _ => [], fun _ => Except.error "offline"⟩
        ⟨none, none, none⟩ =
      (.error "At least one sender or subject must be specified", []) :=
  empty_criteria_validation _ _ (Or.inl rfl) (Or.inl rfl)

/-- C5: when the metadata fetch fails for exactly one of the candidates
(all of which carry ids), the match list has exactly N-1 entries; and the
overall search still returns `.ok` of the fetched matches — the failure
is never propagated out of `searchEmails`. -/
theorem metadata_failure_skipped :
    ∀ (g : String → Except String (Option String)) (msgs : List ListedMsg),
      (∀ m ∈ msgs, truthy m.id = true) →
      (msgs.filter (fetchFails g)).length = 1 →
      (fetchMatchesTr g msgs).1.length = msgs.length - 1 ∧
      ∀ (p : Provider) (c : SearchConfig), queryParts c ≠ [] →
        (searchEmailsTr p c).1 =
          .ok (fetchMatchesTr p.getMessage
            (p.listMessages (String.intercalate " AND " (queryParts c))
              (min (defaultedMaxResults c.maxResults) 500))).1 := by
  intro g msgs hall hone
  constructor
  · have := fetchMatchesTr_length g msgs hall
    omega
  · intro p c hq
    simp [searchEmailsTr, hq]

/-- C5 witness: 3 candidates, the fetch of `"bad"` fails, 2 matches. -/
theorem metadata_failure_skipped_witness :
    (fetchMatchesTr
        (fun i => if i = "bad" then Except.error "boom"
                  else Except.ok (some "snippet"))
        [⟨some "x", some "t1"⟩, ⟨some "bad", some "t2"⟩,
         ⟨some "y", some "t3"⟩]).1.length =
      ([⟨some "x", some "t1"⟩, ⟨some "bad", some "t2"⟩,
        (⟨some "y", some "t3"⟩ : ListedMsg)] : List ListedMsg).length - 1 :=
  (metadata_failure_skipped
    (fun i => if i = "bad" then Except.error "boom"
              else Except.ok (some "snippet"))
    [⟨some "x", some "t1"⟩, ⟨some "bad", some "t2"⟩, ⟨some "y", some "t3"⟩]
    (by decide) (by decide)).1

lemma successfulMatch_ids_sublist (g : String → Except String (Option String)) :
    ∀ msgs : List ListedMsg,
      List.Sublist ((msgs.filterMap (successfulMatch g)).map EmailMatch.id)
        (msgs.filterMap ListedMsg.id) := by
  intro msgs
  induction msgs with
  | nil => simp
  | cons m rest ih =>
    cases hmid : m.id with
    | none =>
      have hsm : successfulMatch g m = none := by
        simp [successfulMatch, truthy, hmid]
      rw [List.filterMap_cons_none hsm, List.filterMap_cons_none hmid]
      exact ih
    | some s =>
      rw [List.filterMap_cons_some hmid]
      by_cases ht : truthy m.id
      · rw [hmid] at ht
        cases hg : g s with
        | ok snip =>
          have hsm : successfulMatch g m =
              some ⟨s, m.threadId.getD "", ((snip.getD "").take 100)⟩ := by
            simp [successfulMatch, ht, hmid, hg]
          rw [List.filterMap_cons_some hsm, List.map_cons]
          exact List.Sublist.cons₂ s ih
        | error e =>
          have hsm : successfulMatch g m = none := by
            simp [successfulMatch, ht, hmid, hg]
          rw [List.filterMap_cons_none hsm]
          exact List.Sublist.cons s ih
      · rw [hmid] at ht
        have hsm : successfulMatch g m = none := by
          simp [successfulMatch, hmid, ht]
        rw [List.filterMap_cons_none hsm]
        exact List.Sublist.cons s ih

/-- C8: the matches are exactly the successful candidates mapped in the
provider's listing order (a `filterMap` over the listed messages, so no
client-side re-sorting), and the returned ids form a sublist — an
order-preserving subsequence — of the listed candidate ids. -/
theorem listing_order_preserved :
    ∀ (g : String → Except String (Option String)) (msgs : List ListedMsg),
      (fetchMatchesTr g msgs).1 = msgs.filterMap (successfulMatch g) ∧
      List.Sublist ((fetchMatchesTr g msgs).1.map EmailMatch.id)
        (msgs.filterMap ListedMsg.id) := by
  intro g msgs
  refine ⟨fetchMatchesTr_eq_filterMap g msgs, ?_⟩
  rw [fetchMatchesTr_eq_filterMap g msgs]
  exact successfulMatch_ids_sublist g msgs

/-- Spec-side helper: an `Except` value is a success. -/
def exceptOk {ε α : Type} : Except ε α → Bool
  | .ok _ => true
  | .error _ => false

lemma reauthorize_events_head (w : AuthEnv) :
    ∃ rest, (reauthorize w).2 = AuthEvent.printAuthUrl :: rest := by
  unfold reauthorize exchangeAndStore
  by_cases hc : truthy w.envAuthCode
  · simp only [hc, if_true]
    cases w.tokenExchange (w.envAuthCode.getD "") <;> simp
  · simp only [hc, Bool.false_eq_true, if_false]
    by_cases ha : w.promptAnswer.trim.isEmpty
    · simp [ha]
    · simp only [ha, Bool.false_eq_true, if_false]
      cases w.tokenExchange w.promptAnswer.trim <;> simp

/-- C7: when a token file exists and the lightweight profile probe
succeeds, `authenticate` returns successfully having performed exactly
the one probe — no authorization URL is printed, no prompt occurs, no
code exchange happens; when the probe fails, the error is not
propagated: the outcome is that of the re-authorization flow, whose
first visible effect after the probe is printing the authorization
URL. -/
theorem token_reuse_and_fallthrough :
    ∀ (w : AuthEnv) (t : String),
      exceptOk (resolveCredentials w) = true →
      w.tokenFile = some t →
      (w.profileOk = true →
        authenticate w = (.ok (), [AuthEvent.profileProbe])) ∧
      (w.profileOk = false →
        authenticate w =
          ((reauthorize w).1, AuthEvent.profileProbe :: (reauthorize w).2) ∧
        AuthEvent.printAuthUrl ∈ (authenticate w).2) := by
  intro w t hok htok
  obtain ⟨creds, hres⟩ : ∃ creds, resolveCredentials w = .ok creds := by
    cases hres : resolveCredentials w with
    | ok creds => exact ⟨creds, rfl⟩
    | error e => rw [hres] at hok; simp [exceptOk] at hok
  constructor
  · intro hp
    simp [authenticate, hres, htok, hp]
  · intro hp
    have hauth : authenticate w =
        ((reauthorize w).1, AuthEvent.profileProbe :: (reauthorize w).2) := by
      simp [authenticate, hres, htok, hp]
    refine ⟨hauth, ?_⟩
    obtain ⟨rest, hrest⟩ := reauthorize_events_head w
    rw [hauth]
    simp [hrest]

/-- C7 witness: a concrete environment with a saved token and a
successful probe reuses the token with exactly one probe event. -/
theorem token_reuse_and_fallthrough_witness :
    authenticate
        ⟨some ⟨"id", "secret", "http://localhost:3000/oauth2callback"⟩,
         none, none, none, some "saved-token", true, none, "",
         fun _ => Except.error "unreachable"⟩ =
      (.ok (), [AuthEvent.profileProbe]) :=
  (token_reuse_and_fallthrough
    ⟨some ⟨"id", "secret", "http://localhost:3000/oauth2callback"⟩,
     none, none, none, some "saved-token", true, none, "",
     fun _ => Except.error "unreachable"⟩
    "saved-token" (by rfl) rfl).1 rfl

end GmailClient
